import Mathlib

/-
  Shallow embedding of the priority speech-queue scheduler implemented in
  src/services/TTSService.ts (class TTSService).

  Text is modelled as a list of Unicode code points (JS strings are UTF-16;
  where the source measures `.length` or slices with `substring`, we measure
  in UTF-16 code units via `utf16Len`).  Engine effects (react-native-tts
  calls) are recorded in an explicit command log; asynchronous engine events
  (tts-error and friends) are delivered as explicit step functions, matching
  the event listeners installed in setupEventListeners.
-/

namespace TTSModel

/-- SpeechPriority from src/types/tts.d.ts: low | medium | high | urgent. -/
inductive SpeechPriority where
  | low
  | medium
  | high
  | urgent
deriving DecidableEq, Repr

/-- PRIORITY_LEVELS table from TTSService.ts lines 41-46. -/
def PRIORITY_LEVELS : SpeechPriority → Nat
  | .low => 1
  | .medium => 2
  | .high => 3
  | .urgent => 4

/-- TTSQueueItem (src/types/tts.d.ts): a speech request plus scheduling
metadata.  Callback closures are not data; the onError deliveries are logged
in the state instead.  The timestamp field is irrelevant to every claim and
omitted; text is a list of code points; id is a natural number standing for
the generated string id. -/
structure TTSQueueItem where
  id : Nat
  text : List Nat
  priority : SpeechPriority
  retryCount : Nat
deriving DecidableEq, Repr

/-- TTSSettings (src/types/tts.d.ts).  The numeric fields are exact
rationals; the optional voice field is never touched by the scheduler logic
and is omitted. -/
structure TTSSettings where
  enabled : Bool
  language : String
  speechRate : ℚ
  pitch : ℚ
  volume : ℚ
  ducking : Bool
  defaultCategory : String
deriving DecidableEq, Repr

/-- getDefaultSettings from TTSService.ts lines 49-59. -/
def getDefaultSettings : TTSSettings :=
  { enabled := true
    language := "ja-JP"
    speechRate := 1
    pitch := 1
    volume := 8/10
    ducking := true
    defaultCategory := "AVAudioSessionCategoryPlayback" }

/-- Commands issued to the react-native-tts engine, in order. -/
inductive EngineCmd where
  | speakCmd (text : List Nat)
  | stopCmd
deriving DecidableEq, Repr

/-- The mutable fields of the TTSService singleton that the scheduler logic
touches, plus the engine-command log and the log of item ids for which an
onError callback was fired. -/
structure TTSState where
  speechQueue : List TTSQueueItem
  currentSpeech : Option TTSQueueItem
  settings : TTSSettings
  customReplacements : List (List Nat × List Nat)
  engineCmds : List EngineCmd
  onErrorLog : List Nat
deriving DecidableEq, Repr

/-- The freshly initialized service state: empty queue, nothing playing,
default settings, no custom replacements. -/
def initialState : TTSState :=
  { speechQueue := []
    currentSpeech := none
    settings := getDefaultSettings
    customReplacements := []
    engineCmds := []
    onErrorLog := [] }

/-- stopCurrent (TTSService.ts lines 477-484): await Tts.stop() then clear
the current slot.  Modelled on the success path of the engine stop call. -/
def stopCurrent (st : TTSState) : TTSState :=
  { st with engineCmds := st.engineCmds ++ [EngineCmd.stopCmd]
            currentSpeech := none }

/-- The non-urgent branch of addToQueue (TTSService.ts lines 219-227): the
loop scans for the first index whose priority level is strictly lower than
the new item and splices the item there, defaulting to the end of the
queue.  The recursion below performs exactly that splice. -/
def insertByPriority (item : TTSQueueItem) : List TTSQueueItem → List TTSQueueItem
  | [] => [item]
  | x :: xs =>
    if PRIORITY_LEVELS x.priority < PRIORITY_LEVELS item.priority then
      item :: x :: xs
    else
      x :: insertByPriority item xs

/-- addToQueue (TTSService.ts lines 209-231).  An urgent item stops the
current speech when that speech is not itself urgent, then is unshifted to
the very front; any other item is spliced at the first strictly-lower
priority position. -/
def addToQueue (item : TTSQueueItem) (st : TTSState) : TTSState :=
  if item.priority = SpeechPriority.urgent then
    let st1 :=
      match st.currentSpeech with
      | some cur => if cur.priority ≠ SpeechPriority.urgent then stopCurrent st else st
      | none => st
    { st1 with speechQueue := item :: st1.speechQueue }
  else
    { st with speechQueue := insertByPriority item st.speechQueue }

/-- The effect of addToQueue on the pending queue alone (the queue as a data
structure, independent of the playback slot). -/
def queueInsert (item : TTSQueueItem) (q : List TTSQueueItem) : List TTSQueueItem :=
  if item.priority = SpeechPriority.urgent then item :: q
  else insertByPriority item q

/-- processQueue (TTSService.ts lines 234-259): return early when the queue
is empty or something is already playing; otherwise shift the head, make it
current, and hand its text to the engine.  applyPersonalizedSettings tunes
engine volume/pitch only and never touches the queue, the current slot or
the command order, so it is not modelled here; a throwing Tts.speak is
delivered through errorEvent below. -/
def processQueue (st : TTSState) : TTSState :=
  match st.currentSpeech, st.speechQueue with
  | none, next :: rest =>
    { st with speechQueue := rest
              currentSpeech := some next
              engineCmds := st.engineCmds ++ [EngineCmd.speakCmd next.text] }
  | _, _ => st

/-- popHead of the pending queue: the shift performed by processQueue. -/
def popHead (q : List TTSQueueItem) : Option TTSQueueItem × List TTSQueueItem :=
  match q with
  | [] => (none, [])
  | x :: xs => (some x, xs)

/-- Repeatedly popHead until the queue is empty, collecting the items in the
order they are handed out. -/
def popAll (q : List TTSQueueItem) : List TTSQueueItem :=
  match q with
  | [] => []
  | x :: xs => x :: popAll xs

/-- onSpeechError (TTSService.ts lines 280-299): increment retryCount of the
current item; if still below 3 unshift it back to the queue front, else drop
it; either way the current slot is cleared and processQueue is scheduled. -/
def onSpeechError (st : TTSState) : TTSState :=
  match st.currentSpeech with
  | some cur =>
    let cur' := { cur with retryCount := cur.retryCount + 1 }
    if cur'.retryCount < 3 then
      { st with speechQueue := cur' :: st.speechQueue, currentSpeech := none }
    else
      { st with currentSpeech := none }
  | none => { st with currentSpeech := none }

/-- The tts-error event listener (TTSService.ts lines 158-164): fire the
onError callback of the current item (logged by id), then onSpeechError. -/
def errorEvent (st : TTSState) : TTSState :=
  match st.currentSpeech with
  | some cur => onSpeechError { st with onErrorLog := st.onErrorLog ++ [cur.id] }
  | none => onSpeechError st

/-- One engine attempt that fails: processQueue starts the queue head, the
engine reports tts-error, the listener runs.  Chaining failStep models a
persistently failing engine. -/
def failStep (st : TTSState) : TTSState :=
  errorEvent (processQueue st)

/- ===== TextSanitizer: preprocessText (TTSService.ts lines 303-340) ===== -/

/-- UTF-16 length of one code point (JS string length counts code units). -/
def utf16Len (c : Nat) : Nat :=
  if c < 0x10000 then 1 else 2

/-- JS String.length of a code-point list, in UTF-16 code units. -/
def strLen (s : List Nat) : Nat :=
  (s.map utf16Len).sum

/-- replace(/\n+/g, the ideographic full stop): each maximal run of line
feeds becomes one U+3002 character (TTSService.ts line 307).  The flag says
whether the previous character was a line feed: the first line feed of a run
emits U+3002, the following ones are dropped. -/
def collapseNewlinesAux (prevNl : Bool) : List Nat → List Nat
  | [] => []
  | c :: rest =>
    if c = 10 then
      if prevNl then collapseNewlinesAux true rest
      else 0x3002 :: collapseNewlinesAux true rest
    else c :: collapseNewlinesAux false rest

def collapseNewlines (s : List Nat) : List Nat :=
  collapseNewlinesAux false s

/-- The emoji / pictograph code-point ranges removed on TTSService.ts
line 310: 1F600-1F64F, 1F300-1F5FF, 1F680-1F6FF, 1F1E0-1F1FF, 2600-26FF,
2700-27BF. -/
def isEmojiCodePoint (c : Nat) : Bool :=
  (decide (0x1F600 ≤ c) && decide (c ≤ 0x1F64F)) ||
  (decide (0x1F300 ≤ c) && decide (c ≤ 0x1F5FF)) ||
  (decide (0x1F680 ≤ c) && decide (c ≤ 0x1F6FF)) ||
  (decide (0x1F1E0 ≤ c) && decide (c ≤ 0x1F1FF)) ||
  (decide (0x2600 ≤ c) && decide (c ≤ 0x26FF)) ||
  (decide (0x2700 ≤ c) && decide (c ≤ 0x27BF))

/-- The emoji-stripping replace on TTSService.ts line 310. -/
def stripEmoji (s : List Nat) : List Nat :=
  s.filter (fun c => !isEmojiCodePoint c)

/-- JS String.prototype.replace with a global pattern and a plain
replacement: scan left to right, non-overlapping; at each position where the
pattern is a prefix emit the replacement and skip the match, otherwise copy
one character.  The skip counter carries the number of already-matched
characters still to be dropped, so the recursion is structural on the
string.  The patterns actually fed to this in the source (the built-in
symbol table, and the stored custom table used by the claims below) contain
no regex metacharacters, so literal matching is the exact semantics; an
empty pattern never occurs in those tables and is treated as matching
nothing. -/
def replaceAllGo (pat repl : List Nat) : Nat → List Nat → List Nat
  | _, [] => []
  | skip + 1, _ :: rest => replaceAllGo pat repl skip rest
  | 0, c :: rest =>
    if pat ≠ [] ∧ (c :: rest).take pat.length = pat then
      repl ++ replaceAllGo pat repl (pat.length - 1) rest
    else
      c :: replaceAllGo pat repl 0 rest

def replaceAll (pat repl s : List Nat) : List Nat :=
  replaceAllGo pat repl 0 s

/-- Apply a replacement table entry by entry, in insertion order, exactly as
the two Object.entries loops on TTSService.ts lines 313-315 and 330-332. -/
def applyReplacements (table : List (List Nat × List Nat)) (s : List Nat) : List Nat :=
  table.foldl (fun acc pr => replaceAll pr.1 pr.2 acc) s

/-- The built-in symbolReplacements table (TTSService.ts lines 318-328), as
code points, in source order:
warning sign + VS16 to chuui-comma, light bulb to teian-comma, calendar to
karendaa-comma, alarm clock to jikan-comma, battery to batterii-comma,
books to gakushuu-comma, briefcase to shigoto-comma, fullwidth percent to
paasento, degree C to do. -/
def symbolReplacements : List (List Nat × List Nat) :=
  [ ([0x26A0, 0xFE0F], [0x6CE8, 0x610F, 0x3001])
  , ([0x1F4A1], [0x63D0, 0x6848, 0x3001])
  , ([0x1F4C5], [0x30AB, 0x30EC, 0x30F3, 0x30C0, 0x30FC, 0x3001])
  , ([0x23F0], [0x6642, 0x9593, 0x3001])
  , ([0x1F50B], [0x30D0, 0x30C3, 0x30C6, 0x30EA, 0x30FC, 0x3001])
  , ([0x1F4DA], [0x5B66, 0x7FD2, 0x3001])
  , ([0x1F4BC], [0x4ED5, 0x4E8B, 0x3001])
  , ([0xFF05], [0x30D1, 0x30FC, 0x30BB, 0x30F3, 0x30C8])
  , ([0xB0, 0x43], [0x5EA6]) ]

/-- Take a prefix of at most the given number of UTF-16 code units, exactly
as substring(0, n): when the cut falls inside a surrogate pair, substring
keeps the lone high surrogate, which we record as its code unit value. -/
def takeUnits : Nat → List Nat → List Nat
  | _, [] => []
  | 0, _ :: _ => []
  | budget + 1, c :: rest =>
    if utf16Len c ≤ budget + 1 then c :: takeUnits (budget + 1 - utf16Len c) rest
    else [0xD800 + (c - 0x10000) / 0x400]

/-- The length cap on TTSService.ts lines 335-337: when the UTF-16 length
exceeds 200, keep substring(0, 197) and append three ASCII dots. -/
def truncateText (s : List Nat) : List Nat :=
  if 200 < strLen s then takeUnits 197 s ++ [46, 46, 46] else s

/-- The code points removed by JS String.prototype.trim (WhiteSpace and
LineTerminator productions). -/
def isJsWhitespace (c : Nat) : Bool :=
  c == 0x9 || c == 0xA || c == 0xB || c == 0xC || c == 0xD || c == 0x20 ||
  c == 0xA0 || c == 0x1680 || (decide (0x2000 ≤ c) && decide (c ≤ 0x200A)) ||
  c == 0x2028 || c == 0x2029 || c == 0x202F || c == 0x205F || c == 0x3000 ||
  c == 0xFEFF

/-- JS String.prototype.trim: drop whitespace from both ends. -/
def trimJs (s : List Nat) : List Nat :=
  (((s.dropWhile (fun c => isJsWhitespace c)).reverse.dropWhile
      (fun c => isJsWhitespace c)).reverse)

/-- The text after the newline, emoji, custom-replacement and built-in
symbol-replacement stages of preprocessText, before the length cap and the
final trim. -/
def replacedText (custom : List (List Nat × List Nat)) (text : List Nat) : List Nat :=
  applyReplacements symbolReplacements
    (applyReplacements custom (stripEmoji (collapseNewlines text)))

/-- preprocessText (TTSService.ts lines 303-340): collapse newlines, strip
emoji, apply the stored custom replacements then the built-in symbol table,
cap the length at 200 UTF-16 units, trim. -/
def preprocessText (custom : List (List Nat × List Nat)) (text : List Nat) : List Nat :=
  trimJs (truncateText (replacedText custom text))

/- ===== ContextAdapter: calculateContextualAdjustments (lines 405-444) ===== -/

/-- The contextualAdjustments record of PersonalizedTTSConfig
(src/types/tts.d.ts). -/
structure ContextualAdjustments where
  volumeAdjustment : ℚ
  speedAdjustment : ℚ
  priorityThreshold : SpeechPriority
deriving DecidableEq, Repr

/-- calculateContextualAdjustments (TTSService.ts lines 405-444).  Start
from zero; during night hours (hour below 7 or above 22) lower the volume by
0.3 and raise the threshold to medium; the daytime branch (hour 9 to 17) has
an empty body, its speed adjustment being commented out; then add the
priority delta (urgent +0.2, high +0.1, low -0.1).  The speed adjustment is
always returned as zero.  No clamping is performed anywhere. -/
def calculateContextualAdjustments (priority : SpeechPriority) (hour : Nat) :
    ContextualAdjustments :=
  let base : ℚ := 0
  let volumeAfterTime : ℚ := if hour < 7 ∨ 22 < hour then base - 3/10 else base
  let threshold : SpeechPriority :=
    if hour < 7 ∨ 22 < hour then SpeechPriority.medium else SpeechPriority.low
  let volumeAfterPriority : ℚ :=
    match priority with
    | .urgent => volumeAfterTime + 2/10
    | .high => volumeAfterTime + 1/10
    | .low => volumeAfterTime - 1/10
    | .medium => volumeAfterTime
  { volumeAdjustment := volumeAfterPriority
    speedAdjustment := 0
    priorityThreshold := threshold }

/- ===== speak (TTSService.ts lines 169-206) ===== -/

/-- A speech request as submitted by producers (src/types/tts.d.ts);
callbacks and engine options carry no scheduling information. -/
structure SpeechRequest where
  text : List Nat
  priority : SpeechPriority
deriving DecidableEq, Repr

/-- The return value of speak: the strings disabled and empty, or the
generated queue-item id. -/
inductive SpeakResult where
  | disabled
  | empty
  | accepted (id : Nat)
deriving DecidableEq, Repr

/-- speak (TTSService.ts lines 169-206).  The generated id is passed in as
a parameter (generateId draws on the clock and Math.random).  When the
service is disabled the call returns the string disabled untouched;
otherwise the text is preprocessed, an empty result is rejected with the
string empty, and an accepted item enters the queue with retryCount 0;
processQueue runs when nothing is currently playing.  updateUsageStats only
mutates the statistics record and is not modelled. -/
def speak (newId : Nat) (req : SpeechRequest) (st : TTSState) :
    TTSState × SpeakResult :=
  if st.settings.enabled = false then (st, SpeakResult.disabled)
  else
    let processedText := preprocessText st.customReplacements req.text
    if trimJs processedText = [] then (st, SpeakResult.empty)
    else
      let item : TTSQueueItem :=
        { id := newId, text := processedText, priority := req.priority, retryCount := 0 }
      let st1 := addToQueue item st
      let st2 :=
        match st1.currentSpeech with
        | none => processQueue st1
        | some _ => st1
      (st2, SpeakResult.accepted newId)

/- ===== Settings management (lines 501-514) and getStatus (lines 673-684) ===== -/

/-- A Partial TTSSettings object: each field either present or absent. -/
structure TTSSettingsPatch where
  enabled : Option Bool := none
  language : Option String := none
  speechRate : Option ℚ := none
  pitch : Option ℚ := none
  volume : Option ℚ := none
  ducking : Option Bool := none
  defaultCategory : Option String := none
deriving DecidableEq, Repr

/-- The two object spreads of saveSettings (TTSService.ts lines 505-506):
first the incoming Partial object with speechRate overwritten to 1.0, then
that spread over the current settings, so present fields win. -/
def mergeSettings (s : TTSSettings) (p : TTSSettingsPatch) : TTSSettings :=
  let forced : TTSSettingsPatch := { p with speechRate := some 1 }
  { enabled := forced.enabled.getD s.enabled
    language := forced.language.getD s.language
    speechRate := forced.speechRate.getD s.speechRate
    pitch := forced.pitch.getD s.pitch
    volume := forced.volume.getD s.volume
    ducking := forced.ducking.getD s.ducking
    defaultCategory := forced.defaultCategory.getD s.defaultCategory }

/-- saveSettings (TTSService.ts lines 501-514): merge, store, return the
merged settings.  The subsequent applySettings call re-forces speechRate to
1.0, which the merge has already done, and otherwise only talks to the
engine; AsyncStorage persistence is outside the state. -/
def saveSettings (p : TTSSettingsPatch) (st : TTSState) : TTSState × TTSSettings :=
  let updated := mergeSettings st.settings p
  ({ st with settings := updated }, updated)

/-- The slice of TTSStatus (getStatus, TTSService.ts lines 673-684) backed
by scheduler state. -/
structure TTSStatus where
  isInitialized : Bool
  isSpeaking : Bool
  currentSettings : TTSSettings
  queueLength : Nat
deriving DecidableEq, Repr

/-- getStatus (TTSService.ts lines 673-684), after initialize has run. -/
def getStatus (st : TTSState) : TTSStatus :=
  { isInitialized := true
    isSpeaking := st.currentSpeech.isSome
    currentSettings := st.settings
    queueLength := st.speechQueue.length }

/- ===== stop (TTSService.ts lines 466-475) ===== -/

/-- stop (TTSService.ts lines 466-475): inside a try block, await
Tts.stop(), then clear the queue and the current slot; a throwing engine
stop jumps to the catch (which only logs), leaving both untouched.  The
engine outcome is the explicit Except argument. -/
def stop (engineStop : Except String Unit) (st : TTSState) : TTSState :=
  match engineStop with
  | Except.error _ => st
  | Except.ok _ =>
    { st with engineCmds := st.engineCmds ++ [EngineCmd.stopCmd]
              speechQueue := []
              currentSpeech := none }

/- ===== Insertion sequences for the ordering claims ===== -/

/-- A sequence of insert calls performed one after the other on the pending
queue (nothing playing, so the urgent branch of addToQueue only unshifts). -/
def enqueueAll (items : List TTSQueueItem) (q : List TTSQueueItem) : List TTSQueueItem :=
  items.foldl (fun acc it => queueInsert it acc) q

/-- Queue items for a list of priorities, with ids numbered consecutively
from n in call order, fresh (retryCount 0, empty text). -/
def mkItems (n : Nat) : List SpeechPriority → List TTSQueueItem
  | [] => []
  | p :: ps => { id := n, text := [], priority := p, retryCount := 0 } :: mkItems (n + 1) ps

/-- The scheduling order the queue actually realizes: strictly higher
priority first; among equal priorities below urgent, smaller id (earlier
insert) first; among urgent items, larger id (later insert) first. -/
def schedOrder (a b : TTSQueueItem) : Prop :=
  PRIORITY_LEVELS b.priority < PRIORITY_LEVELS a.priority ∨
  (a.priority = b.priority ∧ a.priority ≠ SpeechPriority.urgent ∧ a.id < b.id) ∨
  (a.priority = b.priority ∧ a.priority = SpeechPriority.urgent ∧ b.id < a.id)

/- ===== Concrete fixtures used by witnesses and counterexamples ===== -/

def itemU1 : TTSQueueItem :=
  { id := 1, text := [], priority := SpeechPriority.urgent, retryCount := 0 }

def itemU2 : TTSQueueItem :=
  { id := 2, text := [], priority := SpeechPriority.urgent, retryCount := 0 }

def itemMedPlaying : TTSQueueItem :=
  { id := 1, text := [65], priority := SpeechPriority.medium, retryCount := 0 }

def stMedPlaying : TTSState :=
  { initialState with currentSpeech := some itemMedPlaying }

def itemUrgentNew : TTSQueueItem :=
  { id := 2, text := [85], priority := SpeechPriority.urgent, retryCount := 0 }

def itemFail : TTSQueueItem :=
  { id := 7, text := [65], priority := SpeechPriority.medium, retryCount := 0 }

def stFail : TTSState :=
  { initialState with speechQueue := [itemFail] }

def itemLowCur : TTSQueueItem :=
  { id := 1, text := [65], priority := SpeechPriority.low, retryCount := 0 }

def itemHighQueued : TTSQueueItem :=
  { id := 2, text := [66], priority := SpeechPriority.high, retryCount := 0 }

def stRetry : TTSState :=
  { initialState with speechQueue := [itemHighQueued], currentSpeech := some itemLowCur }

def patchRate2 : TTSSettingsPatch :=
  { speechRate := some 2 }

def stDisabled : TTSState :=
  { initialState with settings := { getDefaultSettings with enabled := false } }

def reqLowA : SpeechRequest :=
  { text := [97], priority := SpeechPriority.low }

/- ======================= Theorems ======================= -/

theorem addToQueue_speechQueue (item : TTSQueueItem) (st : TTSState) :
    (addToQueue item st).speechQueue = queueInsert item st.speechQueue := by
  unfold addToQueue queueInsert
  by_cases h : item.priority = SpeechPriority.urgent
  · simp only [h, if_pos]
    cases st.currentSpeech with
    | none => rfl
    | some cur =>
      by_cases hc : cur.priority ≠ SpeechPriority.urgent
      · simp [hc, stopCurrent]
      · simp [hc]
  · simp [h]

theorem popAll_eq (q : List TTSQueueItem) : popAll q = q := by
  induction q with
  | nil => rfl
  | cons x xs ih => simp [popAll, ih]

/-- C2: inserting an Urgent item while the playing item is strictly below
Urgent cancels the active playback (engine stop issued, current slot
cleared) and places the Urgent item at the very front of the queue, so the
next processQueue hands exactly that item to the speech engine. -/
theorem urgent_preemption (st : TTSState) (cur item : TTSQueueItem)
    (h1 : st.currentSpeech = some cur)
    (h2 : cur.priority ≠ SpeechPriority.urgent)
    (h3 : item.priority = SpeechPriority.urgent) :
    (addToQueue item st).speechQueue = item :: st.speechQueue ∧
    (addToQueue item st).currentSpeech = none ∧
    (addToQueue item st).engineCmds = st.engineCmds ++ [EngineCmd.stopCmd] ∧
    (processQueue (addToQueue item st)).currentSpeech = some item ∧
    (processQueue (addToQueue item st)).engineCmds =
      st.engineCmds ++ [EngineCmd.stopCmd, EngineCmd.speakCmd item.text] := by
  unfold addToQueue
  simp [h1, h2, h3, stopCurrent, processQueue]

theorem urgent_preemption_witness :
    (addToQueue itemUrgentNew stMedPlaying).speechQueue =
      itemUrgentNew :: stMedPlaying.speechQueue ∧
    (addToQueue itemUrgentNew stMedPlaying).currentSpeech = none ∧
    (addToQueue itemUrgentNew stMedPlaying).engineCmds =
      stMedPlaying.engineCmds ++ [EngineCmd.stopCmd] ∧
    (processQueue (addToQueue itemUrgentNew stMedPlaying)).currentSpeech =
      some itemUrgentNew ∧
    (processQueue (addToQueue itemUrgentNew stMedPlaying)).engineCmds =
      stMedPlaying.engineCmds ++
        [EngineCmd.stopCmd, EngineCmd.speakCmd itemUrgentNew.text] :=
  urgent_preemption stMedPlaying itemMedPlaying itemUrgentNew rfl
    (by decide) rfl

/-- C10: when the engine stop call throws inside the public stop operation,
the scheduler state is unchanged (queue kept, active slot kept); the queue
and slot are reset only on the success path. -/
theorem stop_engine_error_preserves_state (st : TTSState) (msg : String) :
    stop (Except.error msg) st = st ∧
    (stop (Except.ok ()) st).speechQueue = [] ∧
    (stop (Except.ok ()) st).currentSpeech = none :=
  ⟨rfl, rfl, rfl⟩

/-- C9: while the enabled setting is false, speak short-circuits to the
disabled result with a completely unchanged state: nothing enters the queue,
the playback slot is untouched and no engine command is issued. -/
theorem disabled_speak_noop (newId : Nat) (req : SpeechRequest) (st : TTSState)
    (h : st.settings.enabled = false) :
    speak newId req st = (st, SpeakResult.disabled) := by
  unfold speak
  simp [h]

theorem disabled_speak_noop_witness :
    speak 1 reqLowA stDisabled = (stDisabled, SpeakResult.disabled) :=
  disabled_speak_noop 1 reqLowA stDisabled rfl

/-- C5 counterexample: a low-priority item errors (first failure) while a
strictly higher-priority item waits in the queue; the retried item is
re-inserted at the very front, AHEAD of the higher-priority item, refuting
the claim that it never passes a strictly higher-priority queued item. -/
theorem retry_front_counterexample :
    stRetry.currentSpeech = some itemLowCur ∧
    stRetry.speechQueue = [itemHighQueued] ∧
    PRIORITY_LEVELS itemLowCur.priority < PRIORITY_LEVELS itemHighQueued.priority ∧
    (onSpeechError stRetry).speechQueue =
      [{ itemLowCur with retryCount := 1 }, itemHighQueued] :=
  ⟨rfl, rfl, by decide, rfl⟩

/-- C5 amended: when the current item errors with retryCount (after the
increment) still below 3, it is re-inserted at the very front of the entire
queue, ahead of every queued item regardless of priority, and the current
slot is cleared. -/
theorem retry_requeue_front_amended (st : TTSState) (cur : TTSQueueItem)
    (h1 : st.currentSpeech = some cur)
    (h2 : cur.retryCount + 1 < 3) :
    (onSpeechError st).speechQueue =
      { cur with retryCount := cur.retryCount + 1 } :: st.speechQueue ∧
    (onSpeechError st).currentSpeech = none := by
  unfold onSpeechError
  rw [h1]
  simp [h2]

theorem retry_requeue_front_amended_witness :
    (onSpeechError stRetry).speechQueue =
      { itemLowCur with retryCount := itemLowCur.retryCount + 1 } :: stRetry.speechQueue ∧
    (onSpeechError stRetry).currentSpeech = none :=
  retry_requeue_front_amended stRetry itemLowCur rfl (by decide)

/-- C7 counterexample: at hour 23 with priority low (night rule -0.3 plus
low-priority rule -0.1, no clamping anywhere in the code) the volume
adjustment is -0.4, strictly below the claimed lower bound -0.3. -/
theorem volume_range_counterexample :
    (calculateContextualAdjustments SpeechPriority.low 23).volumeAdjustment = -(4/10) ∧
    (calculateContextualAdjustments SpeechPriority.low 23).volumeAdjustment < -(3/10) := by
  constructor
  · norm_num [calculateContextualAdjustments]
  · norm_num [calculateContextualAdjustments]

/-- C7 amended: for every priority and every hour, the computed volume
adjustment lies in the interval [-0.4, +0.2] (the code never clamps; the
extremes are night plus low and urgent outside night). -/
theorem volume_range_amended (p : SpeechPriority) (hour : Nat) :
    -(4/10) ≤ (calculateContextualAdjustments p hour).volumeAdjustment ∧
    (calculateContextualAdjustments p hour).volumeAdjustment ≤ 2/10 := by
  unfold calculateContextualAdjustments
  by_cases h : hour < 7 ∨ 22 < hour <;> cases p <;> simp [h] <;> norm_num

/-- C8 counterexample: a Partial settings object that sets speechRate to 2
is not reflected by the merge: the saved settings carry speechRate 1.0 (the
code overwrites the field unconditionally), so a field present in the patch
does not receive the patch value. -/
theorem save_settings_counterexample :
    patchRate2.speechRate = some 2 ∧
    (saveSettings patchRate2 initialState).2.speechRate = 1 ∧
    (1 : ℚ) ≠ 2 :=
  ⟨rfl, rfl, by norm_num⟩

/-- C8 amended: saveSettings followed by getStatus yields the merge of the
old settings with the patch on every field except speechRate: fields present
in the patch take the patch value, absent fields keep the old value, and
speechRate is always forced to 1.0 regardless of the patch. -/
theorem save_settings_merge_amended (st : TTSState) (p : TTSSettingsPatch) :
    (getStatus (saveSettings p st).1).currentSettings = (saveSettings p st).2 ∧
    (saveSettings p st).2.enabled = p.enabled.getD st.settings.enabled ∧
    (saveSettings p st).2.language = p.language.getD st.settings.language ∧
    (saveSettings p st).2.pitch = p.pitch.getD st.settings.pitch ∧
    (saveSettings p st).2.volume = p.volume.getD st.settings.volume ∧
    (saveSettings p st).2.ducking = p.ducking.getD st.settings.ducking ∧
    (saveSettings p st).2.defaultCategory =
      p.defaultCategory.getD st.settings.defaultCategory ∧
    (saveSettings p st).2.speechRate = 1 :=
  ⟨rfl, rfl, rfl, rfl, rfl, rfl, rfl, rfl⟩

/-- C4: the suppression threshold is computed (at hour 23 it is medium, and
low is strictly below it) but speak never consults it: a low-priority
request at such an hour is accepted, enters the queue and is handed to the
speech engine. -/
theorem threshold_not_enforced :
    (calculateContextualAdjustments SpeechPriority.low 23).priorityThreshold =
      SpeechPriority.medium ∧
    PRIORITY_LEVELS SpeechPriority.low < PRIORITY_LEVELS SpeechPriority.medium ∧
    (speak 1 reqLowA initialState).2 = SpeakResult.accepted 1 ∧
    (speak 1 reqLowA initialState).1.currentSpeech =
      some { id := 1, text := [97], priority := SpeechPriority.low, retryCount := 0 } ∧
    (speak 1 reqLowA initialState).1.engineCmds = [EngineCmd.speakCmd [97]] :=
  ⟨rfl, by decide, rfl, rfl, rfl⟩

/-- C3 counterexample: a queued item facing a persistently failing engine is
handed to the engine three times in total with three onError deliveries,
after which a further failing step changes nothing (the item is gone), so
the claimed four failures with four onError invocations and three retries
never happen. -/
theorem four_failures_counterexample :
    (failStep (failStep (failStep stFail))).onErrorLog.length = 3 ∧
    failStep (failStep (failStep (failStep stFail))) =
      failStep (failStep (failStep stFail)) ∧
    (3 : Nat) ≠ 4 :=
  ⟨rfl, rfl, by decide⟩

/-- C3 amended: retryCount starts at 0; with an engine that errors on every
attempt, the item is handed to the engine exactly three times, with exactly
three onError deliveries, is then permanently dropped (queue empty, slot
empty, a further failing step is a no-op), and onSpeechError never
re-enqueues an item whose incremented retryCount has reached 3. -/
theorem retry_bounded_amended (item : TTSQueueItem) (h : item.retryCount = 0) :
    (failStep (failStep (failStep { initialState with speechQueue := [item] }))).onErrorLog =
      [item.id, item.id, item.id] ∧
    (failStep (failStep (failStep { initialState with speechQueue := [item] }))).engineCmds =
      [EngineCmd.speakCmd item.text, EngineCmd.speakCmd item.text,
        EngineCmd.speakCmd item.text] ∧
    (failStep (failStep (failStep { initialState with speechQueue := [item] }))).speechQueue =
      [] ∧
    (failStep (failStep (failStep { initialState with speechQueue := [item] }))).currentSpeech =
      none ∧
    failStep (failStep (failStep (failStep { initialState with speechQueue := [item] }))) =
      failStep (failStep (failStep { initialState with speechQueue := [item] })) ∧
    (∀ st : TTSState, ∀ y ∈ (onSpeechError st).speechQueue,
        y ∈ st.speechQueue ∨ y.retryCount < 3) := by
  obtain ⟨i, t, p, rc⟩ := item
  simp only [TTSQueueItem.retryCount] at h
  subst h
  refine ⟨rfl, rfl, rfl, rfl, rfl, ?_⟩
  intro st y hy
  unfold onSpeechError at hy
  cases hcur : st.currentSpeech with
  | none =>
    rw [hcur] at hy
    exact Or.inl hy
  | some cur =>
    rw [hcur] at hy
    by_cases hlt : cur.retryCount + 1 < 3
    · simp only [hlt, if_pos] at hy
      rcases List.mem_cons.mp hy with hEq | hMem
      · exact Or.inr (hEq ▸ hlt)
      · exact Or.inl hMem
    · simp only [hlt, if_neg, not_false_iff] at hy
      exact Or.inl hy

theorem retry_bounded_amended_witness :
    (failStep (failStep (failStep { initialState with speechQueue := [itemFail] }))).onErrorLog =
      [itemFail.id, itemFail.id, itemFail.id] ∧
    (failStep (failStep (failStep { initialState with speechQueue := [itemFail] }))).engineCmds =
      [EngineCmd.speakCmd itemFail.text, EngineCmd.speakCmd itemFail.text,
        EngineCmd.speakCmd itemFail.text] ∧
    (failStep (failStep (failStep { initialState with speechQueue := [itemFail] }))).speechQueue =
      [] ∧
    (failStep (failStep (failStep { initialState with speechQueue := [itemFail] }))).currentSpeech =
      none ∧
    failStep (failStep (failStep (failStep { initialState with speechQueue := [itemFail] }))) =
      failStep (failStep (failStep { initialState with speechQueue := [itemFail] })) :=
  ⟨(retry_bounded_amended itemFail rfl).1,
    (retry_bounded_amended itemFail rfl).2.1,
    (retry_bounded_amended itemFail rfl).2.2.1,
    (retry_bounded_amended itemFail rfl).2.2.2.1,
    (retry_bounded_amended itemFail rfl).2.2.2.2.1⟩

/-- C1 counterexample: two Urgent items inserted one after the other into an
idle scheduler come back from popHead in reverse insertion order (the second
one first), refuting FIFO stability at equal priority for Urgent. -/
theorem urgent_fifo_counterexample :
    itemU1.priority = itemU2.priority ∧
    popAll (enqueueAll [itemU1, itemU2] []) = [itemU2, itemU1] ∧
    itemU2 ≠ itemU1 :=
  ⟨rfl, rfl, by decide⟩

/-- C6 counterexample: the one-character input FULLWIDTH PERCENT SIGN is
replaced by the five-character word paasento, so the sanitizer output is
strictly longer than its input. -/
theorem sanitize_length_counterexample :
    strLen (preprocessText [] [0xFF05]) = 5 ∧
    strLen [0xFF05] = 1 ∧
    ¬ strLen (preprocessText [] [0xFF05]) ≤ strLen [0xFF05] :=
  ⟨rfl, rfl, by decide⟩

theorem schedOrder_lvl_le {a b : TTSQueueItem} (h : schedOrder a b) :
    PRIORITY_LEVELS b.priority ≤ PRIORITY_LEVELS a.priority := by
  rcases h with h | ⟨h, _⟩ | ⟨h, _⟩
  · exact le_of_lt h
  · rw [h]
  · rw [h]

theorem lvl_inj {a b : SpeechPriority}
    (h : PRIORITY_LEVELS a = PRIORITY_LEVELS b) : a = b := by
  cases a <;> cases b <;> simp_all [PRIORITY_LEVELS]

theorem lvl_lt_of_ne_urgent {p : SpeechPriority}
    (h : p ≠ SpeechPriority.urgent) : PRIORITY_LEVELS p < 4 := by
  cases p <;> simp_all [PRIORITY_LEVELS]

theorem mem_insertByPriority {x item : TTSQueueItem} {q : List TTSQueueItem} :
    x ∈ insertByPriority item q ↔ x = item ∨ x ∈ q := by
  induction q with
  | nil => simp [insertByPriority]
  | cons y ys ih =>
    unfold insertByPriority
    by_cases h : PRIORITY_LEVELS y.priority < PRIORITY_LEVELS item.priority
    · simp [h]
    · simp only [h, if_neg, not_false_iff, List.mem_cons, ih]
      tauto

theorem mem_queueInsert {x item : TTSQueueItem} {q : List TTSQueueItem} :
    x ∈ queueInsert item q ↔ x = item ∨ x ∈ q := by
  unfold queueInsert
  by_cases h : item.priority = SpeechPriority.urgent
  · simp [h]
  · simp [h, mem_insertByPriority]

theorem insertByPriority_pairwise (item : TTSQueueItem) (q : List TTSQueueItem)
    (hne : item.priority ≠ SpeechPriority.urgent)
    (hq : q.Pairwise schedOrder)
    (hid : ∀ x ∈ q, x.id < item.id) :
    (insertByPriority item q).Pairwise schedOrder := by
  induction q with
  | nil => simp [insertByPriority, List.pairwise_cons]
  | cons y ys ih =>
    rw [List.pairwise_cons] at hq
    obtain ⟨hy, hys⟩ := hq
    unfold insertByPriority
    by_cases h : PRIORITY_LEVELS y.priority < PRIORITY_LEVELS item.priority
    · rw [if_pos h]
      refine List.Pairwise.cons ?_ (List.Pairwise.cons hy hys)
      intro z hz
      rcases List.mem_cons.mp hz with rfl | hz'
      · exact Or.inl h
      · exact Or.inl (lt_of_le_of_lt (schedOrder_lvl_le (hy z hz')) h)
    · rw [if_neg h]
      refine List.Pairwise.cons ?_ (ih hys ?_)
      · intro z hz
        rcases mem_insertByPriority.mp hz with hz_eq | hz'
        · rw [hz_eq]
          push_neg at h
          rcases lt_or_eq_of_le h with hlt | heq
          · exact Or.inl hlt
          · have hpe : item.priority = y.priority := lvl_inj heq
            exact Or.inr (Or.inl ⟨hpe.symm, hpe ▸ hne,
              hid y (List.mem_cons_self _ _)⟩)
        · exact hy z hz'
      · intro x hx
        exact hid x (List.mem_cons_of_mem _ hx)

theorem urgent_cons_pairwise (item : TTSQueueItem) (q : List TTSQueueItem)
    (hu : item.priority = SpeechPriority.urgent)
    (hq : q.Pairwise schedOrder)
    (hid : ∀ x ∈ q, x.id < item.id) :
    (item :: q).Pairwise schedOrder := by
  refine List.Pairwise.cons ?_ hq
  intro z hz
  by_cases hz4 : z.priority = SpeechPriority.urgent
  · exact Or.inr (Or.inr ⟨hu.trans hz4.symm, hu, hid z hz⟩)
  · refine Or.inl ?_
    rw [hu]
    exact lvl_lt_of_ne_urgent hz4

theorem queueInsert_pairwise (item : TTSQueueItem) (q : List TTSQueueItem)
    (hq : q.Pairwise schedOrder)
    (hid : ∀ x ∈ q, x.id < item.id) :
    (queueInsert item q).Pairwise schedOrder := by
  unfold queueInsert
  by_cases h : item.priority = SpeechPriority.urgent
  · rw [if_pos h]
    exact urgent_cons_pairwise item q h hq hid
  · rw [if_neg h]
    exact insertByPriority_pairwise item q h hq hid

theorem enqueueAll_pairwise :
    ∀ (items : List TTSQueueItem) (q : List TTSQueueItem),
      q.Pairwise schedOrder →
      items.Pairwise (fun a b => a.id < b.id) →
      (∀ x ∈ q, ∀ y ∈ items, x.id < y.id) →
      (enqueueAll items q).Pairwise schedOrder := by
  intro items
  induction items with
  | nil =>
    intro q hq _ _
    simpa [enqueueAll] using hq
  | cons it its ih =>
    intro q hq hitems hcross
    rw [List.pairwise_cons] at hitems
    obtain ⟨hhead, htail⟩ := hitems
    have step : enqueueAll (it :: its) q = enqueueAll its (queueInsert it q) := rfl
    rw [step]
    apply ih
    · exact queueInsert_pairwise it q hq
        (fun x hx => hcross x hx it (List.mem_cons_self _ _))
    · exact htail
    · intro x hx y hy
      rcases mem_queueInsert.mp hx with hx_eq | hx'
      · rw [hx_eq]
        exact hhead y hy
      · exact hcross x hx' y (List.mem_cons_of_mem _ hy)

theorem mkItems_id_ge :
    ∀ (ps : List SpeechPriority) (n : Nat), ∀ y ∈ mkItems n ps, n ≤ y.id := by
  intro ps
  induction ps with
  | nil =>
    intro n y hy
    simp [mkItems] at hy
  | cons p ps ih =>
    intro n y hy
    rw [mkItems] at hy
    rcases List.mem_cons.mp hy with rfl | hy'
    · exact Nat.le_refl n
    · exact Nat.le_of_succ_le (ih (n + 1) y hy')

theorem mkItems_pairwise :
    ∀ (ps : List SpeechPriority) (n : Nat),
      (mkItems n ps).Pairwise (fun a b => a.id < b.id) := by
  intro ps
  induction ps with
  | nil =>
    intro n
    simp [mkItems]
  | cons p ps ih =>
    intro n
    rw [mkItems]
    refine List.Pairwise.cons ?_ (ih (n + 1))
    intro y hy
    have := mkItems_id_ge ps (n + 1) y hy
    show n < y.id
    omega

theorem strLen_cons (c : Nat) (s : List Nat) :
    strLen (c :: s) = utf16Len c + strLen s := by
  simp [strLen]

theorem strLen_append (s t : List Nat) :
    strLen (s ++ t) = strLen s + strLen t := by
  simp [strLen]

theorem strLen_singleton (x : Nat) : strLen [x] = utf16Len x := by
  simp [strLen]

theorem strLen_takeUnits_le :
    ∀ (s : List Nat) (n : Nat), strLen (takeUnits n s) ≤ n + 1 := by
  intro s
  induction s with
  | nil =>
    intro n
    simp [takeUnits, strLen]
  | cons c rest ih =>
    intro n
    rcases n with _ | m
    · simp [takeUnits, strLen]
    · rw [takeUnits]
      by_cases hle : utf16Len c ≤ m + 1
      · rw [if_pos hle, strLen_cons]
        have h1 := ih (m + 1 - utf16Len c)
        have h2 : 1 ≤ utf16Len c := by
          unfold utf16Len
          split <;> omega
        omega
      · rw [if_neg hle, strLen_singleton]
        have hx : utf16Len (0xD800 + (c - 0x10000) / 0x400) ≤ 2 := by
          unfold utf16Len
          split <;> omega
        omega

theorem strLen_truncate_le (s : List Nat) : strLen (truncateText s) ≤ strLen s := by
  unfold truncateText
  by_cases h : 200 < strLen s
  · rw [if_pos h, strLen_append]
    have h1 := strLen_takeUnits_le s 197
    have h3 : strLen [46, 46, 46] = 3 := rfl
    omega
  · rw [if_neg h]

theorem strLen_dropWhile_le (p : Nat → Bool) (s : List Nat) :
    strLen (s.dropWhile p) ≤ strLen s := by
  induction s with
  | nil => simp [strLen]
  | cons c rest ih =>
    by_cases h : p c = true
    · rw [List.dropWhile_cons_of_pos h, strLen_cons]
      omega
    · rw [List.dropWhile_cons_of_neg h]

theorem strLen_reverse (s : List Nat) : strLen s.reverse = strLen s := by
  induction s with
  | nil => rfl
  | cons c rest ih =>
    rw [List.reverse_cons, strLen_append, strLen_cons, ih, strLen_cons]
    simp [strLen]
    omega

theorem strLen_trimJs_le (s : List Nat) : strLen (trimJs s) ≤ strLen s := by
  unfold trimJs
  have h1 := strLen_dropWhile_le (fun c => isJsWhitespace c) s
  have h2 := strLen_reverse (s.dropWhile (fun c => isJsWhitespace c))
  have h3 := strLen_dropWhile_le (fun c => isJsWhitespace c)
    ((s.dropWhile (fun c => isJsWhitespace c)).reverse)
  have h4 := strLen_reverse
    (((s.dropWhile (fun c => isJsWhitespace c)).reverse).dropWhile
      (fun c => isJsWhitespace c))
  omega

theorem mem_dropWhile_of_neg {p : Nat → Bool} {c : Nat} :
    ∀ {l : List Nat}, c ∈ l → p c = false → c ∈ l.dropWhile p := by
  intro l
  induction l with
  | nil =>
    intro h _
    exact absurd h (List.not_mem_nil c)
  | cons d rest ih =>
    intro hmem hpc
    by_cases hd : p d = true
    · rw [List.dropWhile_cons_of_pos hd]
      rcases List.mem_cons.mp hmem with hcd | hrest
      · rw [hcd] at hpc
        rw [hpc] at hd
        exact absurd hd (by decide)
      · exact ih hrest hpc
    · rw [List.dropWhile_cons_of_neg hd]
      exact hmem

theorem mem_collapseNewlinesAux {c : Nat} (hc10 : c ≠ 10) :
    ∀ (b : Bool) (s : List Nat), c ∈ s → c ∈ collapseNewlinesAux b s := by
  intro b s
  induction s generalizing b with
  | nil =>
    intro h
    exact absurd h (List.not_mem_nil c)
  | cons d rest ih =>
    intro hmem
    unfold collapseNewlinesAux
    by_cases hd : d = 10
    · rw [if_pos hd]
      have hcrest : c ∈ rest := by
        rcases List.mem_cons.mp hmem with hcd | hrest
        · exact absurd (hcd.trans hd) hc10
        · exact hrest
      cases b with
      | true => exact ih true hcrest
      | false => exact List.mem_cons_of_mem _ (ih true hcrest)
    · rw [if_neg hd]
      rcases List.mem_cons.mp hmem with hcd | hrest
      · rw [hcd]
        exact List.mem_cons_self _ _
      · exact List.mem_cons_of_mem _ (ih false hrest)

theorem exists_nonWs_replaceAll (pat repl : List Nat)
    (hrepl : ∃ d ∈ repl, isJsWhitespace d = false) :
    ∀ s : List Nat, (∃ c ∈ s, isJsWhitespace c = false) →
      ∃ c ∈ replaceAll pat repl s, isJsWhitespace c = false := by
  intro s
  induction s with
  | nil =>
    intro h
    obtain ⟨c, hc, _⟩ := h
    exact absurd hc (List.not_mem_nil c)
  | cons c rest ih =>
    intro h
    unfold replaceAll at ih ⊢
    rw [replaceAllGo]
    by_cases hm : pat ≠ [] ∧ (c :: rest).take pat.length = pat
    · rw [if_pos hm]
      obtain ⟨d, hd, hdw⟩ := hrepl
      exact ⟨d, List.mem_append_left _ hd, hdw⟩
    · rw [if_neg hm]
      obtain ⟨x, hx, hxw⟩ := h
      rcases List.mem_cons.mp hx with hxc | hxrest
      · exact ⟨c, List.mem_cons_self _ _, hxc ▸ hxw⟩
      · obtain ⟨y, hy, hyw⟩ := ih ⟨x, hxrest, hxw⟩
        exact ⟨y, List.mem_cons_of_mem _ hy, hyw⟩

theorem exists_nonWs_applyReplacements :
    ∀ (table : List (List Nat × List Nat)),
      (∀ pr ∈ table, ∃ d ∈ pr.2, isJsWhitespace d = false) →
      ∀ s : List Nat, (∃ c ∈ s, isJsWhitespace c = false) →
        ∃ c ∈ applyReplacements table s, isJsWhitespace c = false := by
  intro table
  induction table with
  | nil =>
    intro _ s h
    exact h
  | cons pr rest ih =>
    intro htable s h
    have step : applyReplacements (pr :: rest) s =
        applyReplacements rest (replaceAll pr.1 pr.2 s) := rfl
    rw [step]
    exact ih (fun q hq => htable q (List.mem_cons_of_mem _ hq)) _
      (exists_nonWs_replaceAll pr.1 pr.2
        (htable pr (List.mem_cons_self _ _)) s h)

theorem symbolReplacements_nonWs :
    ∀ pr ∈ symbolReplacements, ∃ d ∈ pr.2, isJsWhitespace d = false := by
  decide

theorem exists_nonWs_truncate (s : List Nat)
    (h : ∃ c ∈ s, isJsWhitespace c = false) :
    ∃ c ∈ truncateText s, isJsWhitespace c = false := by
  unfold truncateText
  by_cases ht : 200 < strLen s
  · rw [if_pos ht]
    exact ⟨46, List.mem_append_right _ (by decide), by decide⟩
  · rw [if_neg ht]
    exact h

theorem trimJs_ne_nil_of_exists (s : List Nat)
    (h : ∃ c ∈ s, isJsWhitespace c = false) : trimJs s ≠ [] := by
  obtain ⟨c, hmem, hw⟩ := h
  have h1 : c ∈ s.dropWhile (fun c => isJsWhitespace c) :=
    mem_dropWhile_of_neg hmem hw
  have h2 : c ∈ (s.dropWhile (fun c => isJsWhitespace c)).reverse :=
    List.mem_reverse.mpr h1
  have h3 : c ∈ ((s.dropWhile (fun c => isJsWhitespace c)).reverse).dropWhile
      (fun c => isJsWhitespace c) :=
    mem_dropWhile_of_neg h2 hw
  have h4 : c ∈ trimJs s := by
    unfold trimJs
    exact List.mem_reverse.mpr h3
  exact List.ne_nil_of_mem h4

/-- C6 amended: the sanitizer output is never longer (in UTF-16 units) than
the text after the replacement stages (the length cap and the final trim
never lengthen), although it can exceed the raw input because symbol
replacement expands; and, with no custom replacements configured, the output
is empty only if the input was empty or consisted entirely of strippable
characters (emoji code points and JS whitespace) — stated contrapositively:
any non-strippable character in the input forces a nonempty output. -/
theorem sanitize_bounds_amended :
    (∀ (custom : List (List Nat × List Nat)) (text : List Nat),
        strLen (preprocessText custom text) ≤ strLen (replacedText custom text)) ∧
    (∀ (text : List Nat) (c : Nat), c ∈ text → isEmojiCodePoint c = false →
        isJsWhitespace c = false → preprocessText [] text ≠ []) := by
  constructor
  · intro custom text
    unfold preprocessText
    exact le_trans (strLen_trimJs_le _) (strLen_truncate_le _)
  · intro text c hc_mem hcE hcW
    have hc10 : c ≠ 10 := by
      intro h
      rw [h] at hcW
      exact absurd hcW (by decide)
    have h1 : c ∈ collapseNewlines text :=
      mem_collapseNewlinesAux hc10 false text hc_mem
    have h2 : c ∈ stripEmoji (collapseNewlines text) := by
      unfold stripEmoji
      refine List.mem_filter.mpr ⟨h1, ?_⟩
      rw [hcE]
      rfl
    have h3 : applyReplacements ([] : List (List Nat × List Nat))
        (stripEmoji (collapseNewlines text)) =
        stripEmoji (collapseNewlines text) := rfl
    have h4 : ∃ x ∈ replacedText [] text, isJsWhitespace x = false := by
      unfold replacedText
      rw [h3]
      exact exists_nonWs_applyReplacements symbolReplacements
        symbolReplacements_nonWs _ ⟨c, h2, hcW⟩
    exact trimJs_ne_nil_of_exists _ (exists_nonWs_truncate _ h4)

theorem sanitize_bounds_amended_witness :
    strLen (preprocessText [] [97]) ≤ strLen (replacedText [] [97]) ∧
    preprocessText [] [97] ≠ [] :=
  ⟨sanitize_bounds_amended.1 [] [97],
    sanitize_bounds_amended.2 [97] 97 (by decide) (by decide) (by decide)⟩

/-- C1 amended: for every sequence of insert calls into the idle pending
queue, repeated popHead returns items in non-increasing priority order; for
equal priorities below Urgent in insertion order (FIFO-stable); two Urgent
items inserted one after the other come back newest-first (reverse
insertion order), because an Urgent insert always unshifts to the front. -/
theorem queue_pop_order_amended (ps : List SpeechPriority) :
    (popAll (enqueueAll (mkItems 1 ps) [])).Pairwise schedOrder := by
  rw [popAll_eq]
  exact enqueueAll_pairwise (mkItems 1 ps) [] (by simp) (mkItems_pairwise ps 1)
    (by simp)

end TTSModel
